import Mathlib

/-!
Verification of the payment-bridge repository's core logic: the forward-only
payment ledger (src/db/payments.js), the per-shop gateway settings store
(src/db/rgSettings.js), the signature verifiers and session reader
(src/utils/shopHost.js modules), the hosted-page URL builder/verifier
(src/utils/rocketgate.js), the payment-session initializer (src/routes/pay.js)
and the callback status mappers (src/routes/callbacks.js).

Conventions of the shallow embedding:
* JavaScript `null`/`undefined` string values are modelled as `Option String`
  (`none` = nullish); JS truthiness of strings is `strTruthy` (`""` is falsy).
* The nullish-coalescing operator `a ?? b` is `jsNullish`.
* Database rows are Lean structures; a single-row read-modify-write is a pure
  function from the previous row to the next row (the SQL upsert's CASE merge
  in payments.js computes exactly the JS-level `toWrite` merge, so the model
  returns that merge).
* HMAC-SHA256 and JSON parsing are external library collaborators and enter
  as function parameters (`hmacF`, `parseF`); every theorem quantifies over
  them, and witnesses instantiate them with concrete functions.
* Wall-clock timestamps enter as explicit parameters (`nowTs`, `nowMs`,
  `nowSec`); `created_at`/`updated_at` bookkeeping columns are elided.
-/

namespace RgSp

/-- JS truthiness for an optional string: `null`/`undefined`/`""` are falsy. -/
def strFalsy : Option String → Bool
  | none => true
  | some s => s == ""

/-- JS nullish coalescing `a ?? b` for optional strings. -/
def jsNullish (a b : Option String) : Option String :=
  match a with
  | some x => some x
  | none => b

/-! ## Forward-only rank (src/db/payments.js, RANK / canAdvance) -/

/-- The RANK map of src/db/payments.js, lines 30-41, as an association list. -/
def rankTable : List (String × Nat) :=
  [("initiated", 0), ("pending", 1), ("returned_fail", 2), ("returned_success", 3),
   ("paid", 4), ("refunded", 5), ("voided", 6), ("chargeback", 7),
   ("error", 8), ("declined", 9)]

/-- `RANK.has(s) ? RANK.get(s) : undefined` as an Option lookup. -/
def lookupRank (s : String) : Option Nat :=
  (rankTable.find? (fun p => p.1 == s)).map (fun p => p.2)

/-- `RANK.has(s) ? RANK.get(s) : 0` — unknown statuses rank 0. -/
def rankOf (s : String) : Nat :=
  (lookupRank s).getD 0

/-- canAdvance (payments.js lines 43-48): a falsy old status always advances;
otherwise compare ranks, unknown statuses ranking 0. -/
def canAdvance (oldStatus : Option String) (newStatus : String) : Bool :=
  if strFalsy oldStatus then true
  else rankOf newStatus ≥ rankOf (oldStatus.getD "")

/-! ## Payment rows and the ledger operations -/

/-- One entry of the status_history JSON array (`{ts, status, source}`). -/
structure HistEntry where
  ts : String
  status : Option String
  source : String
deriving Repr, DecidableEq

/-- A row of the payments table (timestamp columns elided). -/
structure PaymentRow where
  shop_domain : Option String := none
  order_id : String
  payment_id : Option String := none
  customer_id : Option String := none
  amount : Option String := none
  currency : Option String := none
  status : Option String := none
  rocketgate_txn : Option String := none
  status_history : List HistEntry := []
deriving Repr, DecidableEq

/-- Arguments of createOrUpdatePayment (payments.js lines 97-107). -/
structure UpsertPaymentArgs where
  shopDomain : Option String := none
  orderId : String
  paymentId : Option String := none
  customerId : Option String := none
  amount : Option String := none
  currency : Option String := none
  status : Option String := none
  rocketgateTxnId : Option String := none
  appendHistory : Bool := true

/-- createOrUpdatePayment (payments.js lines 97-178) as a pure merge of the
previous row (if any) with the arguments.  The SQL `ON CONFLICT ... CASE`
update applies `excluded.*` values exactly when they are non-null, and every
`toWrite` field already falls back to the previous row's value, so the stored
row equals the JS-level `toWrite` merge modelled here. -/
def createOrUpdatePayment (prev : Option PaymentRow) (a : UpsertPaymentArgs)
    (nowTs : String) : PaymentRow :=
  let prevStatus : Option String := prev.bind (fun p => p.status)
  let nextStatus : Option String :=
    match a.status with
    | some s =>
      if s != "" && canAdvance prevStatus s then some s
      else jsNullish prevStatus (jsNullish (some s) (some "pending"))
    | none => jsNullish prevStatus (some "pending")
  let prevHist : List HistEntry := (prev.map (fun p => p.status_history)).getD []
  let hist :=
    if a.appendHistory then
      prevHist ++ [{ ts := nowTs, status := nextStatus, source := "createOrUpdate" }]
    else prevHist
  { shop_domain := jsNullish a.shopDomain (prev.bind (fun p => p.shop_domain)),
    order_id := a.orderId,
    payment_id := jsNullish a.paymentId (prev.bind (fun p => p.payment_id)),
    customer_id := jsNullish a.customerId (prev.bind (fun p => p.customer_id)),
    amount := jsNullish a.amount (prev.bind (fun p => p.amount)),
    currency := jsNullish a.currency (prev.bind (fun p => p.currency)),
    status := nextStatus,
    rocketgate_txn := jsNullish a.rocketgateTxnId (prev.bind (fun p => p.rocketgate_txn)),
    status_history := hist }

/-- setPaymentStatus (payments.js lines 183-218): forward-only status update.
`prev` is the row found by `getPayment(orderId)` (`none` if missing). -/
def setPaymentStatus (prev : Option PaymentRow) (orderId status : String)
    (rocketgateTxnId : Option String) (nowTs : String)
    (appendHistory : Bool := true) : Except String PaymentRow :=
  if orderId == "" || status == "" then
    .error "setPaymentStatus: orderId and status are required"
  else
    match prev with
    | none =>
      .ok (createOrUpdatePayment none
        { orderId := orderId, status := some status,
          rocketgateTxnId := rocketgateTxnId, appendHistory := appendHistory } nowTs)
    | some p =>
      if canAdvance p.status status = false then .ok p
      else
        let hist :=
          if appendHistory then
            p.status_history ++ [{ ts := nowTs, status := some status, source := "setStatus" }]
          else p.status_history
        .ok { p with
              status := some status,
              rocketgate_txn := jsNullish rocketgateTxnId p.rocketgate_txn,
              status_history := hist }

/-! ## Callback status mappers (src/routes/callbacks.js) -/

/-- mapReturnResult (callbacks.js lines 91-95). -/
def mapReturnResult (resultRaw : String) : String :=
  if resultRaw == "success" then "returned_success"
  else if resultRaw == "fail" || resultRaw == "failure" then "returned_fail"
  else "returned_unknown"

/-- mapNotifyStatus (callbacks.js lines 130-146): fixed vocabulary table,
anything else maps to "unknown". -/
def mapNotifyStatus (statusRaw : String) : String :=
  let table : List (String × String) :=
    [("approved", "paid"), ("captured", "paid"), ("settled", "paid"), ("paid", "paid"),
     ("refunded", "refunded"), ("voided", "voided"), ("chargeback", "chargeback"),
     ("disputed", "chargeback"), ("decline", "declined"), ("declined", "declined"),
     ("error", "error"), ("failed", "declined")]
  ((table.find? (fun p => p.1 == statusRaw)).map (fun p => p.2)).getD "unknown"

/-- Effective rank of a stored (possibly absent) status: absent and
out-of-vocabulary statuses rank 0, like canAdvance treats them. -/
def effRank : Option String → Nat
  | none => 0
  | some s => rankOf s

/-! ## Basic sanity examples for the ledger model -/

example : canAdvance (some "paid") "pending" = false := by decide

example : canAdvance (some "returned_success") "paid" = true := by decide

example : canAdvance none "declined" = true := by decide

example : mapNotifyStatus "approved" = "paid" := by decide

example : mapReturnResult "whatever" = "returned_unknown" := by decide

/-! ## Helper lemmas about the rank table -/

theorem lookupRank_ne_empty (s : String) (r : Nat) (h : lookupRank s = some r) :
    s ≠ "" := by
  intro he
  subst he
  have hnone : lookupRank "" = none := by decide
  rw [hnone] at h
  exact Option.noConfusion h

theorem lookupRank_isSome_ne_empty (s : String) (h : (lookupRank s).isSome = true) :
    s ≠ "" := by
  obtain ⟨r, hr⟩ := Option.isSome_iff_exists.mp h
  exact lookupRank_ne_empty s r hr

theorem canAdvance_vocab (oldS newS : String) (ro rn : Nat)
    (h1 : lookupRank oldS = some ro) (h2 : lookupRank newS = some rn) :
    canAdvance (some oldS) newS = decide (rn ≥ ro) := by
  have hne : oldS ≠ "" := lookupRank_ne_empty oldS ro h1
  simp [canAdvance, strFalsy, rankOf, h1, h2, hne]

/-- Evaluation lemma: an advancing setPaymentStatus call writes the new
status, merges the transaction id nullishly and appends history. -/
theorem setPaymentStatus_advance_eq
    (p : PaymentRow) (orderId status : String) (txn : Option String)
    (nowTs : String) (ah : Bool)
    (hOrd : orderId ≠ "") (hSt : status ≠ "")
    (hcan : canAdvance p.status status = true) :
    setPaymentStatus (some p) orderId status txn nowTs ah =
      .ok { p with
            status := some status,
            rocketgate_txn := jsNullish txn p.rocketgate_txn,
            status_history :=
              if ah then
                p.status_history ++
                  [{ ts := nowTs, status := some status, source := "setStatus" }]
              else p.status_history } := by
  simp [setPaymentStatus, hOrd, hSt, hcan]

/-- Evaluation lemma: a non-advancing setPaymentStatus call is a no-op that
returns the previous row. -/
theorem setPaymentStatus_noop_eq
    (p : PaymentRow) (orderId status : String) (txn : Option String)
    (nowTs : String) (ah : Bool)
    (hOrd : orderId ≠ "") (hSt : status ≠ "")
    (hcan : canAdvance p.status status = false) :
    setPaymentStatus (some p) orderId status txn nowTs ah = .ok p := by
  simp [setPaymentStatus, hOrd, hSt, hcan]

/-! ## C1: forward-only status transitions on existing records -/

/-- C1: for every existing payment record with an in-vocabulary status `oldS`
and every in-vocabulary candidate `newS`, `setPaymentStatus` stores `newS`
when `rank newS >= rank oldS`, and otherwise returns the record unchanged
with no error. -/
theorem setPaymentStatus_forward_only
    (p : PaymentRow) (orderId oldS newS : String) (txn : Option String)
    (nowTs : String) (ah : Bool) (ro rn : Nat)
    (hOrd : orderId ≠ "")
    (hOld : p.status = some oldS)
    (h1 : lookupRank oldS = some ro) (h2 : lookupRank newS = some rn) :
    (rn ≥ ro →
      ∃ q, setPaymentStatus (some p) orderId newS txn nowTs ah = .ok q ∧
        q.status = some newS)
    ∧ (rn < ro → setPaymentStatus (some p) orderId newS txn nowTs ah = .ok p) := by
  have hnew : newS ≠ "" := lookupRank_ne_empty newS rn h2
  have hcan : canAdvance p.status newS = decide (rn ≥ ro) := by
    rw [hOld]; exact canAdvance_vocab oldS newS ro rn h1 h2
  constructor
  · intro hge
    have hc : canAdvance p.status newS = true := by
      rw [hcan]; exact decide_eq_true hge
    exact ⟨_, setPaymentStatus_advance_eq p orderId newS txn nowTs ah hOrd hnew hc, rfl⟩
  · intro hlt
    have hc : canAdvance p.status newS = false := by
      rw [hcan]; exact decide_eq_false (Nat.not_le.mpr hlt)
    exact setPaymentStatus_noop_eq p orderId newS txn nowTs ah hOrd hnew hc

theorem setPaymentStatus_forward_only_witness :
    (∃ q, setPaymentStatus
        (some { order_id := "O-1", status := some "pending" })
        "O-1" "paid" none "t0" true = .ok q ∧ q.status = some "paid")
    ∧ setPaymentStatus
        (some { order_id := "O-1", status := some "paid" })
        "O-1" "pending" none "t0" true =
      .ok { order_id := "O-1", status := some "paid" } :=
  ⟨(setPaymentStatus_forward_only
      { order_id := "O-1", status := some "pending" }
      "O-1" "pending" "paid" none "t0" true 1 4
      (by decide) rfl (by decide) (by decide)).1 (by decide),
   (setPaymentStatus_forward_only
      { order_id := "O-1", status := some "paid" }
      "O-1" "paid" "pending" none "t0" true 4 1
      (by decide) rfl (by decide) (by decide)).2 (by decide)⟩

/-! ## C2: gateway transaction id on setPaymentStatus -/

/-- Concrete record for the C2 counterexample: status `paid`, stored gateway
transaction id `RG-A`. -/
def c2Row : PaymentRow :=
  { order_id := "O-2", status := some "paid", rocketgate_txn := some "RG-A" }

/-- C2 counterexample: on a non-advancing transition (`paid` → `pending`),
`setPaymentStatus` with the non-null gateway transaction id `RG-B` returns the
record unchanged, so the stored gatewayTransactionId stays `RG-A` and does NOT
equal the supplied `RG-B` — refuting the claim that a non-null `gatewayTxn`
overwrites regardless of whether the transition advanced. -/
theorem setPaymentStatus_txn_dropped_on_noop :
    setPaymentStatus (some c2Row) "O-2" "pending" (some "RG-B") "t0" true = .ok c2Row
    ∧ c2Row.rocketgate_txn = some "RG-A"
    ∧ c2Row.rocketgate_txn ≠ some "RG-B" := by
  refine ⟨?_, rfl, by decide⟩
  rfl

/-- C2 amended: on an existing record, a non-null `gatewayTxn` overwrites the
stored gatewayTransactionId exactly when the status transition advances
(`canAdvance`); a null `gatewayTxn` leaves it unchanged; and when the
transition does not advance the whole record — gatewayTransactionId
included — is returned unchanged. -/
theorem setPaymentStatus_txn_update_rule
    (p : PaymentRow) (orderId status : String) (txn : Option String)
    (nowTs : String) (ah : Bool)
    (hOrd : orderId ≠ "") (hSt : status ≠ "") :
    (canAdvance p.status status = true →
      ∃ q, setPaymentStatus (some p) orderId status txn nowTs ah = .ok q ∧
        q.rocketgate_txn = jsNullish txn p.rocketgate_txn ∧
        (∀ x, txn = some x → q.rocketgate_txn = some x) ∧
        (txn = none → q.rocketgate_txn = p.rocketgate_txn))
    ∧ (canAdvance p.status status = false →
        setPaymentStatus (some p) orderId status txn nowTs ah = .ok p) := by
  constructor
  · intro hcan
    refine ⟨_, setPaymentStatus_advance_eq p orderId status txn nowTs ah hOrd hSt hcan,
      rfl, ?_, ?_⟩
    · intro x hx; simp [hx, jsNullish]
    · intro hx; simp [hx, jsNullish]
  · intro hcan
    exact setPaymentStatus_noop_eq p orderId status txn nowTs ah hOrd hSt hcan

theorem setPaymentStatus_txn_update_rule_witness :
    ∃ q, setPaymentStatus
        (some { order_id := "O-3", status := some "pending", rocketgate_txn := some "RG-old" })
        "O-3" "paid" (some "RG-new") "t0" true = .ok q ∧
      q.rocketgate_txn = jsNullish (some "RG-new") (some "RG-old") ∧
      (∀ x, (some "RG-new" : Option String) = some x → q.rocketgate_txn = some x) ∧
      ((some "RG-new" : Option String) = none → q.rocketgate_txn = some "RG-old") :=
  (setPaymentStatus_txn_update_rule
      { order_id := "O-3", status := some "pending", rocketgate_txn := some "RG-old" }
      "O-3" "paid" (some "RG-new") "t0" true
      (by decide) (by decide)).1 (by decide)

/-! ## C9: out-of-vocabulary statuses rank 0 -/

/-- C9: an out-of-vocabulary status (such as `unknown` from the notify mapper
or `returned_unknown` from the buyer-return mapper) ranks 0 in the
forward-only check: `setPaymentStatus` writes it onto an existing record
exactly when the record's effective rank is 0 (absent status, `initiated`, or
itself out-of-vocabulary), and any in-vocabulary status overwrites a stored
out-of-vocabulary status. -/
theorem setPaymentStatus_unknown_rank_zero
    (p : PaymentRow) (orderId s u v : String) (txn txn2 : Option String)
    (nowTs : String)
    (hOrd : orderId ≠ "") (hs : s ≠ "")
    (hsU : lookupRank s = none) (hu : lookupRank u = none)
    (hv : (lookupRank v).isSome = true) :
    ((∃ q, setPaymentStatus (some p) orderId s txn nowTs true = .ok q ∧
        q.status = some s)
      ↔ effRank p.status = 0)
    ∧ (∃ q, setPaymentStatus (some { p with status := some u })
          orderId v txn2 nowTs true = .ok q ∧ q.status = some v) := by
  have hvne : v ≠ "" := lookupRank_isSome_ne_empty v hv
  have hranks : rankOf s = 0 := by simp [rankOf, hsU]
  constructor
  · constructor
    · rintro ⟨q, hq, hqs⟩
      by_contra hne
      have hcan : canAdvance p.status s = false := by
        cases hp : p.status with
        | none => simp [effRank, hp] at hne
        | some oldS =>
          by_cases ho : oldS = ""
          · rw [hp, ho] at hne
            exact absurd (by decide) hne
          · have hro : rankOf oldS ≠ 0 := by
              simpa [effRank, hp] using hne
            simp [canAdvance, strFalsy, ho, hranks]
            omega
      rw [setPaymentStatus_noop_eq p orderId s txn nowTs true hOrd hs hcan] at hq
      have hqp : q = p := by injection hq with h; exact h.symm
      rw [hqp] at hqs
      cases hp : p.status with
      | none => simp [effRank, hp] at hne
      | some oldS =>
        rw [hp] at hqs
        have hos : oldS = s := Option.some.inj hqs
        subst hos
        simp [effRank, hp, hranks] at hne
    · intro h0
      have hcan : canAdvance p.status s = true := by
        cases hp : p.status with
        | none => simp [canAdvance, strFalsy]
        | some oldS =>
          by_cases ho : oldS = ""
          · subst ho; simp [canAdvance, strFalsy]
          · have hro : rankOf oldS = 0 := by simpa [effRank, hp] using h0
            simp [canAdvance, strFalsy, ho, hranks, hro]
      exact ⟨_, setPaymentStatus_advance_eq p orderId s txn nowTs true hOrd hs hcan, rfl⟩
  · have hcan : canAdvance (some (u : String)) v = true := by
      by_cases hue : u = ""
      · subst hue; simp [canAdvance, strFalsy]
      · simp [canAdvance, strFalsy, hue, rankOf, hu]
    have hps : ({ p with status := some u } : PaymentRow).status = some u := rfl
    refine ⟨_, setPaymentStatus_advance_eq { p with status := some u }
      orderId v txn2 nowTs true hOrd hvne (by rw [hps]; exact hcan), rfl⟩

theorem setPaymentStatus_unknown_rank_zero_witness :
    ((∃ q, setPaymentStatus
        (some { order_id := "O-4", status := some "initiated" })
        "O-4" (mapNotifyStatus "bogus") none "t0" true = .ok q ∧
        q.status = some (mapNotifyStatus "bogus"))
      ↔ effRank (some "initiated") = 0)
    ∧ (∃ q, setPaymentStatus
          (some { order_id := "O-4", status := some (mapReturnResult "odd") })
          "O-4" "paid" none "t0" true = .ok q ∧ q.status = some "paid") :=
  setPaymentStatus_unknown_rank_zero
    { order_id := "O-4", status := some "initiated" }
    "O-4" (mapNotifyStatus "bogus") (mapReturnResult "odd") "paid" none none "t0"
    (by decide) (by decide) (by decide) (by decide) (by decide)

/-! ## Per-shop RocketGate settings store (src/db/rgSettings.js) -/

/-- A row of the rg_settings table (updated_at elided; shop_domain is assumed
already canonical — canonicalShopHost's host normalization is routing plumbing
outside these claims). -/
structure RgSettingsRow where
  shop : String
  merchantId : Option String := none
  merchantKey : Option String := none
  mode : String := "test"
  returnUrl : Option String := none
  cancelUrl : Option String := none
deriving Repr, DecidableEq

/-- normalizeMode (rgSettings.js lines 43-49): trim+lowercase, `live` iff the
result is exactly "live", `test` in every other case (including null). -/
def normalizeMode (m : Option String) : String :=
  if (m.getD "").trim.toLower == "live" then "live" else "test"

/-- Arguments of upsertRgSettings (rgSettings.js lines 99-106); the JS default
`mode = 'test'` is the `some "test"` default here (a `none` argument models an
explicit null, which normalizes to "test" as well). -/
structure UpsertRgArgs where
  shop : String
  merchantId : Option String := none
  merchantKey : Option String := none
  mode : Option String := some "test"
  returnUrl : Option String := none
  cancelUrl : Option String := none

/-- upsertRgSettings (rgSettings.js lines 99-139): insert or update; the
merchant key is trimmed and only written when non-empty, every other field is
overwritten (absent values become null).  The ON CONFLICT update set contains
merchant_key only when a new key is present. -/
def upsertRgSettings (prev : Option RgSettingsRow) (a : UpsertRgArgs) :
    Except String RgSettingsRow :=
  if a.shop == "" then .error "upsertRgSettings: shop is required"
  else
    let keyTrim : Option String := a.merchantKey.map String.trim
    let hasNewKey : Bool := !strFalsy keyTrim
    match prev with
    | none =>
      .ok { shop := a.shop, merchantId := a.merchantId,
            merchantKey := if hasNewKey then keyTrim else none,
            mode := normalizeMode a.mode,
            returnUrl := a.returnUrl, cancelUrl := a.cancelUrl }
    | some p =>
      .ok { shop := p.shop, merchantId := a.merchantId,
            merchantKey := if hasNewKey then keyTrim else p.merchantKey,
            mode := normalizeMode a.mode,
            returnUrl := a.returnUrl, cancelUrl := a.cancelUrl }

/-! ## Settings routes (src/routes/appApi.js, GET/POST /rg-settings) -/

/-- Body of POST /app-api/rg-settings; both field names for the key are
accepted (merchantKey from JSON, merchantPassword from the HTML form). -/
structure RgPostBody where
  merchantId : Option String := none
  merchantKey : Option String := none
  merchantPassword : Option String := none
  mode : Option String := none
  returnUrl : Option String := none
  cancelUrl : Option String := none

/-- `row.merchantKey ? '********' : ''` — the fixed mask (appApi.js lines 94
and 148). -/
def maskKey (k : Option String) : String :=
  if strFalsy k then "" else "********"

/-- The settings object rendered to the browser: the stored row with the
merchant key replaced by the mask. -/
structure MaskedSettings where
  shop : String
  merchantId : Option String
  merchantKey : String
  mode : String
  returnUrl : Option String
  cancelUrl : Option String
deriving Repr, DecidableEq

def maskSettings (r : RgSettingsRow) : MaskedSettings :=
  { shop := r.shop, merchantId := r.merchantId, merchantKey := maskKey r.merchantKey,
    mode := r.mode, returnUrl := r.returnUrl, cancelUrl := r.cancelUrl }

/-- GET /app-api/rg-settings (appApi.js lines 88-99): load the row for the
session's shop and mask the key (null settings when no row exists). -/
def getRgSettingsRoute (row : Option RgSettingsRow) : Option MaskedSettings :=
  row.map maskSettings

/-- The merchantKey the POST route passes to the upsert (appApi.js lines
120-127): `merchantKey` or `merchantPassword`, trimmed, or undefined when
empty/omitted so the existing key is kept. -/
def postBodyKey (b : RgPostBody) : Option String :=
  let rawKey : Option String :=
    match b.merchantKey with
    | some s => some s
    | none => b.merchantPassword
  match rawKey with
  | some s => if s.trim != "" then some s.trim else none
  | none => none

/-- The upsert arguments the POST route builds from its body. -/
def postUpsertArgs (shop : String) (b : RgPostBody) : UpsertRgArgs :=
  { shop := shop, merchantId := b.merchantId, merchantKey := postBodyKey b,
    mode := b.mode, returnUrl := b.returnUrl, cancelUrl := b.cancelUrl }

/-- POST /app-api/rg-settings (appApi.js lines 107-154): upsert and answer
with the saved row, key masked. -/
def postRgSettingsRoute (prev : Option RgSettingsRow) (shop : String)
    (b : RgPostBody) : Except String (RgSettingsRow × MaskedSettings) :=
  match upsertRgSettings prev (postUpsertArgs shop b) with
  | .error e => .error e
  | .ok saved => .ok (saved, maskSettings saved)

/-- The row upsertRgSettings stores, for both the insert and the update
branch, written as one merge. -/
def mergedRgRow (prev : Option RgSettingsRow) (a : UpsertRgArgs) : RgSettingsRow :=
  { shop := (prev.map (fun p => p.shop)).getD a.shop,
    merchantId := a.merchantId,
    merchantKey :=
      if !strFalsy (a.merchantKey.map String.trim) then a.merchantKey.map String.trim
      else prev.bind (fun p => p.merchantKey),
    mode := normalizeMode a.mode,
    returnUrl := a.returnUrl, cancelUrl := a.cancelUrl }

theorem upsertRgSettings_eq (prev : Option RgSettingsRow) (a : UpsertRgArgs)
    (h : a.shop ≠ "") :
    upsertRgSettings prev a = .ok (mergedRgRow prev a) := by
  cases prev <;> simp [upsertRgSettings, mergedRgRow, h]

theorem postRgSettingsRoute_eq (prev : Option RgSettingsRow) (shop : String)
    (b : RgPostBody) (hShop : shop ≠ "") :
    postRgSettingsRoute prev shop b =
      .ok (mergedRgRow prev (postUpsertArgs shop b),
           maskSettings (mergedRgRow prev (postUpsertArgs shop b))) := by
  have h : (postUpsertArgs shop b).shop ≠ "" := hShop
  rw [postRgSettingsRoute, upsertRgSettings_eq prev (postUpsertArgs shop b) h]

/-! ## C10: the stored mode is always exactly "test" or "live" -/

/-- C10: every upsert stores a mode that is exactly "test" or "live"; it is
"live" iff the supplied mode, trimmed and lowercased, equals "live", and
"test" in every other case (absent, null or unrecognized). -/
theorem upsertRgSettings_mode_invariant
    (prev : Option RgSettingsRow) (a : UpsertRgArgs) (hShop : a.shop ≠ "") :
    ∃ row, upsertRgSettings prev a = .ok row ∧
      row.mode = normalizeMode a.mode ∧
      (row.mode = "test" ∨ row.mode = "live") ∧
      (row.mode = "live" ↔ (a.mode.getD "").trim.toLower = "live") := by
  have hmode : normalizeMode a.mode = "test" ∨ normalizeMode a.mode = "live" := by
    by_cases h : (a.mode.getD "").trim.toLower = "live"
    · right; simp [normalizeMode, h]
    · left; simp [normalizeMode, h]
  have hiff : normalizeMode a.mode = "live" ↔ (a.mode.getD "").trim.toLower = "live" := by
    by_cases h : (a.mode.getD "").trim.toLower = "live"
    · simp [normalizeMode, h]
    · simp [normalizeMode, h]
  exact ⟨mergedRgRow prev a, upsertRgSettings_eq prev a hShop, rfl, hmode, hiff⟩

theorem upsertRgSettings_mode_invariant_witness :
    ∃ row, upsertRgSettings none
        { shop := "rg-demo.myshoplazza.com", mode := some " LIVE " } = .ok row ∧
      row.mode = normalizeMode (some " LIVE ") ∧
      (row.mode = "test" ∨ row.mode = "live") ∧
      (row.mode = "live" ↔ ((some " LIVE " : Option String).getD "").trim.toLower = "live") :=
  upsertRgSettings_mode_invariant none
    { shop := "rg-demo.myshoplazza.com", mode := some " LIVE " } (by decide)

/-! ## C6: merchant key masking and keep-unless-replaced -/

/-- C6: settings responses render the merchant key as the fixed 8-asterisk
mask exactly when a key is stored and as "" otherwise (never the raw value);
a POST whose key field is empty or omitted preserves the stored key while
still applying the other fields, and a non-empty key is stored trimmed. -/
theorem rgSettings_masking_and_preserve
    (prev : Option RgSettingsRow) (shop : String) (b : RgPostBody)
    (hShop : shop ≠ "") :
    (∀ r : RgSettingsRow,
      ((maskSettings r).merchantKey = "" ∨ (maskSettings r).merchantKey = "********")
      ∧ ((maskSettings r).merchantKey = "********" ↔ strFalsy r.merchantKey = false)
      ∧ getRgSettingsRoute (some r) = some (maskSettings r))
    ∧ (∃ saved masked, postRgSettingsRoute prev shop b = .ok (saved, masked) ∧
        masked = maskSettings saved ∧
        (postBodyKey b = none → ∀ p, prev = some p → saved.merchantKey = p.merchantKey) ∧
        (∀ k, postBodyKey b = some k → k.trim ≠ "" →
          saved.merchantKey = some k.trim ∧ masked.merchantKey = "********") ∧
        saved.mode = normalizeMode b.mode ∧
        saved.merchantId = b.merchantId ∧
        saved.returnUrl = b.returnUrl ∧
        saved.cancelUrl = b.cancelUrl) := by
  constructor
  · intro r
    refine ⟨?_, ?_, rfl⟩
    · by_cases h : strFalsy r.merchantKey = true
      · left; simp [maskSettings, maskKey, h]
      · right; simp [maskSettings, maskKey, h]
    · by_cases h : strFalsy r.merchantKey = true
      · simp [maskSettings, maskKey, h]
      · simp [maskSettings, maskKey, h]
  · refine ⟨_, _, postRgSettingsRoute_eq prev shop b hShop, rfl, ?_, ?_, rfl, rfl, rfl, rfl⟩
    · intro hkey p hp
      subst hp
      simp [mergedRgRow, postUpsertArgs, hkey, strFalsy]
    · intro k hk hkt
      constructor
      · simp [mergedRgRow, postUpsertArgs, hk, strFalsy, hkt]
      · simp [maskSettings, maskKey, mergedRgRow, postUpsertArgs, hk, strFalsy, hkt]

theorem rgSettings_masking_and_preserve_witness :
    (∀ r : RgSettingsRow,
      ((maskSettings r).merchantKey = "" ∨ (maskSettings r).merchantKey = "********")
      ∧ ((maskSettings r).merchantKey = "********" ↔ strFalsy r.merchantKey = false)
      ∧ getRgSettingsRoute (some r) = some (maskSettings r))
    ∧ (∃ saved masked,
        postRgSettingsRoute
          (some { shop := "rg-demo.myshoplazza.com", merchantKey := some "old-secret" })
          "rg-demo.myshoplazza.com"
          { merchantId := some "M-1", mode := some "live" } = .ok (saved, masked) ∧
        masked = maskSettings saved ∧
        (postBodyKey { merchantId := some "M-1", mode := some "live" } = none →
          ∀ p, (some { shop := "rg-demo.myshoplazza.com", merchantKey := some "old-secret" }
                 : Option RgSettingsRow) = some p →
            saved.merchantKey = p.merchantKey) ∧
        (∀ k, postBodyKey { merchantId := some "M-1", mode := some "live" } = some k →
          k.trim ≠ "" →
          saved.merchantKey = some k.trim ∧ masked.merchantKey = "********") ∧
        saved.mode = normalizeMode (some "live") ∧
        saved.merchantId = some "M-1" ∧
        saved.returnUrl = none ∧
        saved.cancelUrl = none) :=
  rgSettings_masking_and_preserve
    (some { shop := "rg-demo.myshoplazza.com", merchantKey := some "old-secret" })
    "rg-demo.myshoplazza.com"
    { merchantId := some "M-1", mode := some "live" } (by decide)

/-! ## JS number coercion helpers

`Number(...)` on the decimal-literal strings this service actually handles
(unix timestamps, tolerance seconds, monetary amounts): an optional sign,
digits, an optional fractional part.  `none` models NaN (exponent, hex and
Infinity forms are outside the inputs these routes see and also map to
`none`, which coincides with the code's not-finite rejection branches).
IEEE-754 rounding is elided: all modelled values are exact decimals,
represented as an integer mantissa scaled by a power of ten so that every
comparison is computable integer arithmetic. -/

/-- An exact decimal `mant / 10 ^ exp10`. -/
structure JsNum where
  mant : Int
  exp10 : Nat
deriving Repr, DecidableEq

/-- The rational value of a decimal. -/
def JsNum.toRat (x : JsNum) : Rat :=
  (x.mant : Rat) / (10 : Rat) ^ x.exp10

/-- Strict comparison `b < a` by cross multiplication. -/
def JsNum.gtB (a b : JsNum) : Bool :=
  decide (b.mant * (10 : Int) ^ a.exp10 < a.mant * (10 : Int) ^ b.exp10)

/-- Exact subtraction on a common denominator. -/
def JsNum.sub (a b : JsNum) : JsNum :=
  ⟨a.mant * (10 : Int) ^ b.exp10 - b.mant * (10 : Int) ^ a.exp10, a.exp10 + b.exp10⟩

/-- `Math.abs`. -/
def JsNum.absNum (a : JsNum) : JsNum :=
  ⟨if a.mant < 0 then -a.mant else a.mant, a.exp10⟩

theorem JsNum.gtB_iff (a b : JsNum) :
    JsNum.gtB a b = true ↔ b.toRat < a.toRat := by
  simp only [JsNum.gtB, JsNum.toRat, decide_eq_true_eq]
  rw [div_lt_div_iff₀ (by positivity) (by positivity)]
  constructor <;> intro h <;> exact_mod_cast h

theorem JsNum.toRat_sub (a b : JsNum) :
    (JsNum.sub a b).toRat = a.toRat - b.toRat := by
  simp only [JsNum.sub, JsNum.toRat]
  have h1 : ((10 : Rat) ^ a.exp10) ≠ 0 := by positivity
  have h2 : ((10 : Rat) ^ b.exp10) ≠ 0 := by positivity
  field_simp
  ring

theorem JsNum.toRat_abs (a : JsNum) :
    (JsNum.absNum a).toRat = |a.toRat| := by
  simp only [JsNum.absNum, JsNum.toRat]
  by_cases h : a.mant < 0
  · have hr : (a.mant : Rat) / 10 ^ a.exp10 < 0 :=
      div_neg_of_neg_of_pos (by exact_mod_cast h) (by positivity)
    rw [abs_of_neg hr]
    simp [h, neg_div]
  · have hr : 0 ≤ (a.mant : Rat) / 10 ^ a.exp10 :=
      div_nonneg (by exact_mod_cast Int.not_lt.mp h) (by positivity)
    rw [abs_of_nonneg hr]
    simp [h]

/-- Whitespace trim on a character list (structural, so that concrete inputs
evaluate inside the kernel). -/
def trimChars (cs : List Char) : List Char :=
  ((cs.dropWhile Char.isWhitespace).reverse.dropWhile Char.isWhitespace).reverse

/-- Split a character list on a separator character. -/
def splitOnChar (sep : Char) : List Char → List (List Char)
  | [] => [[]]
  | c :: rest =>
    let r := splitOnChar sep rest
    if c == sep then [] :: r
    else
      match r with
      | [] => [[c]]
      | h :: t => (c :: h) :: t

/-- Accumulate the value of a digit run; `none` on any non-digit. -/
def digitsValAux : List Char → Nat → Option Nat
  | [], acc => some acc
  | c :: rest, acc =>
    if c.isDigit then digitsValAux rest (acc * 10 + (c.toNat - 48)) else none

/-- `Number(s)` on the decimal-literal fragment (sign, digits, one optional
decimal point); whitespace-only strings coerce to 0 like in JS. -/
def jsNumberParseChars (cs : List Char) : Option JsNum :=
  let t := trimChars cs
  match t with
  | [] => some ⟨0, 0⟩
  | c0 :: rest0 =>
    let signNeg : Bool := c0 == '-'
    let u := if c0 == '-' || c0 == '+' then rest0 else c0 :: rest0
    let core : Option JsNum :=
      match splitOnChar '.' u with
      | [a] =>
        if a.isEmpty then none
        else (digitsValAux a 0).map (fun n => ⟨(n : Int), 0⟩)
      | [a, b] =>
        if a.isEmpty && b.isEmpty then none
        else
          let ia := if a.isEmpty then some 0 else digitsValAux a 0
          let fb := if b.isEmpty then some 0 else digitsValAux b 0
          match ia, fb with
          | some i, some f =>
            some ⟨(i : Int) * (10 : Int) ^ b.length + (f : Int), b.length⟩
          | _, _ => none
      | _ => none
    core.map (fun x => if signNeg then ⟨-x.mant, x.exp10⟩ else x)

def jsNumberParse (s : String) : Option JsNum :=
  jsNumberParseChars s.data

/-! ## Webhook signature verifier (src/utils/shoplazzaAuth.js in shopHost.js) -/

/-- timingSafeEqualStr (shoplazzaAuth lines 101-106): length check, then a
fixed-time byte comparison; equal-length UTF-8 byte equality is string
equality. -/
def timingSafeEqualStr (a b : String) : Bool :=
  if a.utf8ByteSize != b.utf8ByteSize then false else a == b

/-- verifyShoplazzaSignature (shoplazzaAuth lines 108-136).  The header
values and tolerance env string are parameters; `nowSec` is
`Math.floor(Date.now() / 1000)`; `hmacF body secret` is the encoded
HMAC-SHA256 digest of the raw body.  With a non-empty timestamp header the
request is rejected before the digest comparison when the timestamp does not
parse or lies outside the tolerance window. -/
def verifyShoplazzaSignature (hmacF : String → String → String)
    (secret sigHeader tsHeader tolStr : String) (nowSec : Int) (rawBody : String) :
    Except String Bool :=
  if secret == "" then .error "Missing SHOPLAZZA_WEBHOOK_SECRET"
  else
    let staleReject : Bool :=
      if tsHeader != "" then
        match jsNumberParse tsHeader, jsNumberParse tolStr with
        | none, _ => true
        | some t, some tol => JsNum.gtB (JsNum.absNum (JsNum.sub ⟨nowSec, 0⟩ t)) tol
        | some _, none => false
      else false
    if staleReject then .ok false
    else .ok (timingSafeEqualStr (hmacF rawBody secret) sigHeader)

/-- Outcome of the Express middleware around the verifier. -/
inductive MWOutcome where
  | next
  | unauthorized401
  | serverError500
deriving DecidableEq, Repr

/-- maybeVerifyShoplazzaSignature (shoplazzaAuth lines 138-157): skip when
verification is off; 401 INVALID_SIGNATURE when the verifier says false; 500
when it throws. -/
def maybeVerifyShoplazzaSignature (verifyOn : Bool) (hmacF : String → String → String)
    (secret sigHeader tsHeader tolStr : String) (nowSec : Int) (rawBody : String) :
    MWOutcome :=
  if !verifyOn then .next
  else
    match verifyShoplazzaSignature hmacF secret sigHeader tsHeader tolStr nowSec rawBody with
    | .ok true => .next
    | .ok false => .unauthorized401
    | .error _ => .serverError500

/-! ## C4: stale timestamps are rejected independently of the signature -/

/-- C4: a webhook carrying a timestamp header farther from the current unix
time than the tolerance is rejected — for every signature header, in
particular a valid one — and the middleware answers 401; the timestamp check
never reaches the digest comparison. -/
theorem verifyShoplazzaSignature_stale_timestamp
    (hmacF : String → String → String)
    (secret sigHeader tsHeader tolStr rawBody : String) (nowSec : Int) (t tol : JsNum)
    (hsec : secret ≠ "") (hts : tsHeader ≠ "")
    (hparse : jsNumberParse tsHeader = some t)
    (htol : jsNumberParse tolStr = some tol)
    (hstale : tol.toRat < |(nowSec : Rat) - t.toRat|) :
    verifyShoplazzaSignature hmacF secret sigHeader tsHeader tolStr nowSec rawBody = .ok false
    ∧ maybeVerifyShoplazzaSignature true hmacF secret sigHeader tsHeader tolStr nowSec rawBody
        = .unauthorized401 := by
  have hb : JsNum.gtB (JsNum.absNum (JsNum.sub ⟨nowSec, 0⟩ t)) tol = true := by
    rw [JsNum.gtB_iff, JsNum.toRat_abs, JsNum.toRat_sub]
    have hnow : (JsNum.toRat ⟨nowSec, 0⟩) = (nowSec : Rat) := by
      simp [JsNum.toRat]
    rw [hnow]
    exact hstale
  have h1 : verifyShoplazzaSignature hmacF secret sigHeader tsHeader tolStr nowSec rawBody
      = .ok false := by
    simp [verifyShoplazzaSignature, hsec, hts, hparse, htol, hb]
  exact ⟨h1, by simp [maybeVerifyShoplazzaSignature, h1]⟩

theorem verifyShoplazzaSignature_stale_timestamp_witness :
    verifyShoplazzaSignature (fun m k => m ++ "|" ++ k)
        "whsec" ("payload" ++ "|" ++ "whsec") "100" "300" 1000 "payload" = .ok false
    ∧ maybeVerifyShoplazzaSignature true (fun m k => m ++ "|" ++ k)
        "whsec" ("payload" ++ "|" ++ "whsec") "100" "300" 1000 "payload"
        = .unauthorized401 :=
  verifyShoplazzaSignature_stale_timestamp (fun m k => m ++ "|" ++ k)
    "whsec" ("payload" ++ "|" ++ "whsec") "100" "300" "payload" 1000 ⟨100, 0⟩ ⟨300, 0⟩
    (by decide) (by decide) (by decide) (by decide)
    (by norm_num [JsNum.toRat])

/-! ## Hosted-page URL builder and verifier (src/utils/rocketgate.js) -/

/-- The five signed fields in their fixed order (rocketgate.js SIGNED_ORDER:
id, merch, amount, purchase, time). -/
structure SignedParams where
  id : String
  merch : String
  amount : String
  purchase : String
  time : Int
deriving Repr, DecidableEq

/-- canonicalStringToHash (rocketgate.js lines 64-67): the fixed-order
`key=value&...` string over exactly the five signed fields. -/
def canonicalStringToHash (p : SignedParams) : String :=
  "id=" ++ p.id ++ "&merch=" ++ p.merch ++ "&amount=" ++ p.amount ++
    "&purchase=" ++ p.purchase ++ "&time=" ++ toString p.time

/-- Object-spread merge `{...a, ...b}`: keys of `a` in order (with the value
from `b` when `b` also has the key), then keys of `b` not in `a`. -/
def spreadPairs (a b : List (String × String)) : List (String × String) :=
  (a.map (fun p =>
    match b.find? (fun q => q.1 == p.1) with
    | some q => (p.1, q.2)
    | none => p))
  ++ b.filter (fun q => !(a.any (fun p => p.1 == q.1)))

/-- Structured result of buildHostedPageUrlDetailed: the signed params, the
hash, and the final query pairs (`hash` appended last).  The percent-encoded
URL assembly of URLSearchParams is elided — it does not affect the signed
payload, which is computed from the canonical string alone. -/
structure HostedPage where
  signedParams : SignedParams
  hash : String
  queryParams : List (String × String)
deriving Repr, DecidableEq

/-- buildHostedPageUrl / buildHostedPageUrlDetailed (rocketgate.js lines
105-171): resolve merchant and secret (throw when missing), build the signed
params with `purchase="true"` and the current unix time, hash the canonical
string, and append extras plus the trailing hash to the query. -/
def hostedPageOf (hmacF : String → String → String)
    (id merch amount hashSecret : String) (extra : List (String × String))
    (nowSeconds : Int) : HostedPage :=
  let sp : SignedParams :=
    { id := id, merch := merch, amount := amount, purchase := "true", time := nowSeconds }
  let signedPairs : List (String × String) :=
    [("id", sp.id), ("merch", sp.merch), ("amount", sp.amount),
     ("purchase", sp.purchase), ("time", toString sp.time)]
  let hash := hmacF (canonicalStringToHash sp) hashSecret
  { signedParams := sp, hash := hash,
    queryParams := spreadPairs signedPairs extra ++ [("hash", hash)] }

def buildHostedPageUrlDetailed (hmacF : String → String → String)
    (id merch amount hashSecret : String) (extra : List (String × String))
    (nowSeconds : Int) : Except String HostedPage :=
  if merch == "" then .error "RocketGate merchant id (merch) missing."
  else if hashSecret == "" then .error "RocketGate hash secret missing."
  else .ok (hostedPageOf hmacF id merch amount hashSecret extra nowSeconds)

/-- verifyHostedPageHash (rocketgate.js lines 177-196): recompute the
canonical string from the five fields, digest it, and compare in constant
time.  A provided hash of equal JS string length but different UTF-8 byte
length would make `crypto.timingSafeEqual` throw, hence the error case. -/
def verifyHostedPageHash (hmacF : String → String → String)
    (id merch amount purchase : String) (time : Int)
    (hashSecret providedHash : String) : Except String Bool :=
  let message := canonicalStringToHash
    { id := id, merch := merch, amount := amount, purchase := purchase, time := time }
  let computed := hmacF message hashSecret
  if providedHash.length != computed.length then .ok false
  else if providedHash.utf8ByteSize != computed.utf8ByteSize then
    .error "ERR_CRYPTO_TIMING_SAFE_EQUAL_LENGTH"
  else .ok (providedHash == computed)

/-! ## C5: hash round-trip; extras are outside the signed payload -/

/-- C5: for every id, merchant, amount, secret and time, the hash the
hosted-page builder computes over the fixed-order canonical string is
accepted by verifyHostedPageHash on the same five fields (purchase "true"),
and extra query parameters do not affect the hash: two builds differing only
in extras produce the same hash. -/
theorem hostedPage_hash_round_trip
    (hmacF : String → String → String) (id merch amount hashSecret : String)
    (extra1 extra2 : List (String × String)) (nowSeconds : Int)
    (hm : merch ≠ "") (hs : hashSecret ≠ "") :
    ∃ p1 p2 : HostedPage,
      buildHostedPageUrlDetailed hmacF id merch amount hashSecret extra1 nowSeconds = .ok p1
      ∧ buildHostedPageUrlDetailed hmacF id merch amount hashSecret extra2 nowSeconds = .ok p2
      ∧ p1.hash = p2.hash
      ∧ verifyHostedPageHash hmacF id merch amount "true" nowSeconds hashSecret p1.hash
          = .ok true := by
  refine ⟨hostedPageOf hmacF id merch amount hashSecret extra1 nowSeconds,
          hostedPageOf hmacF id merch amount hashSecret extra2 nowSeconds,
          ?_, ?_, rfl, ?_⟩
  · simp [buildHostedPageUrlDetailed, hm, hs]
  · simp [buildHostedPageUrlDetailed, hm, hs]
  · simp [verifyHostedPageHash, hostedPageOf]

theorem hostedPage_hash_round_trip_witness :
    ∃ p1 p2 : HostedPage,
      buildHostedPageUrlDetailed (fun m k => m ++ "#" ++ k)
        "CUST-1" "1483462469" "12.99" "sek" [("invoice", "ORD-9"), ("currency", "USD")]
        1735689600 = .ok p1
      ∧ buildHostedPageUrlDetailed (fun m k => m ++ "#" ++ k)
          "CUST-1" "1483462469" "12.99" "sek" [] 1735689600 = .ok p2
      ∧ p1.hash = p2.hash
      ∧ verifyHostedPageHash (fun m k => m ++ "#" ++ k)
          "CUST-1" "1483462469" "12.99" "true" 1735689600 "sek" p1.hash = .ok true :=
  hostedPage_hash_round_trip (fun m k => m ++ "#" ++ k)
    "CUST-1" "1483462469" "12.99" "sek"
    [("invoice", "ORD-9"), ("currency", "USD")] [] 1735689600
    (by decide) (by decide)

/-! ## Launch HMAC verifier (src/utils/shoplazzaAuth.js, verifyLaunchHmac) -/

/-- A query-string value: either a single string or an array of strings. -/
inductive QVal where
  | str (s : String)
  | arr (xs : List String)
deriving Repr, DecidableEq

/-- JS `String(v)` on a query value (arrays join with ","). -/
def qvalToString : QVal → String
  | .str s => s
  | .arr xs => String.intercalate "," xs

/-- First-match lookup in the query object (object keys are unique). -/
def lookupQ (q : List (String × QVal)) (k : String) : Option QVal :=
  (q.find? (fun p => p.1 == k)).map (fun p => p.2)

/-- `String(query.hmac || '')`. -/
def providedHmacOf (q : List (String × QVal)) : String :=
  ((lookupQ q "hmac").map qvalToString).getD ""

/-- The canonical string: every key except `hmac`, sorted lexicographically,
as `key=value` pairs joined with `&` (array values joined with ","). -/
def canonicalQueryString (q : List (String × QVal)) : String :=
  let ks := ((q.map (fun p => p.1)).filter (fun k => k != "hmac")).mergeSort
    (fun a b => a ≤ b)
  String.intercalate "&"
    (ks.map (fun k => k ++ "=" ++ ((lookupQ q k).map qvalToString).getD ""))

/-- Result shape `{ok, reason?}` of verifyLaunchHmac. -/
structure LaunchResult where
  ok : Bool
  reason : Option String
deriving Repr, DecidableEq

/-- verifyLaunchHmac (shoplazzaAuth lines 164-187): `missing` when the query
or secret is absent, `no_hmac` when the signature parameter is empty or
missing, otherwise a constant-time comparison of the lowercased provided
value against the hex digest of the canonical string, `mismatch` on failure. -/
def verifyLaunchHmac (hmacF : String → String → String)
    (query : Option (List (String × QVal))) (clientSecret : String) : LaunchResult :=
  match query with
  | none => { ok := false, reason := some "missing" }
  | some q =>
    if clientSecret == "" then { ok := false, reason := some "missing" }
    else
      let provided := providedHmacOf q
      if provided == "" then { ok := false, reason := some "no_hmac" }
      else
        let digest := hmacF (canonicalQueryString q) clientSecret
        let lowered := provided.toLower
        if digest.utf8ByteSize == lowered.utf8ByteSize && digest == lowered then
          { ok := true, reason := none }
        else { ok := false, reason := some "mismatch" }

/-! ## C8: distinct reason codes for absent vs wrong signatures -/

/-- C8: with a (non-empty) client secret, an empty or missing `hmac`
parameter is rejected with reason `no_hmac`; the reason `mismatch` occurs
only when a signature is present but its lowercase form differs from the
HMAC of the canonical sorted `key=value&...` string; and the verifier
accepts exactly when the present signature matches that digest. -/
theorem verifyLaunchHmac_reason_codes
    (hmacF : String → String → String) (q : List (String × QVal))
    (clientSecret : String) (hsec : clientSecret ≠ "") :
    (providedHmacOf q = "" →
      verifyLaunchHmac hmacF (some q) clientSecret
        = { ok := false, reason := some "no_hmac" })
    ∧ ((verifyLaunchHmac hmacF (some q) clientSecret).reason = some "mismatch" →
        providedHmacOf q ≠ "" ∧
        (providedHmacOf q).toLower ≠ hmacF (canonicalQueryString q) clientSecret)
    ∧ ((verifyLaunchHmac hmacF (some q) clientSecret).ok = true ↔
        providedHmacOf q ≠ "" ∧
        (providedHmacOf q).toLower = hmacF (canonicalQueryString q) clientSecret) := by
  by_cases hp : providedHmacOf q = ""
  · refine ⟨fun _ => by simp [verifyLaunchHmac, hsec, hp], ?_, ?_⟩
    · intro h
      simp [verifyLaunchHmac, hsec, hp] at h
    · simp [verifyLaunchHmac, hsec, hp]
  · have hkey : verifyLaunchHmac hmacF (some q) clientSecret =
        if hmacF (canonicalQueryString q) clientSecret = (providedHmacOf q).toLower
        then { ok := true, reason := none }
        else { ok := false, reason := some "mismatch" } := by
      by_cases h : hmacF (canonicalQueryString q) clientSecret = (providedHmacOf q).toLower
      · simp [verifyLaunchHmac, hsec, hp, h]
      · simp [verifyLaunchHmac, hsec, hp, h]
    by_cases h : hmacF (canonicalQueryString q) clientSecret = (providedHmacOf q).toLower
    · refine ⟨fun hc => absurd hc hp, ?_, ?_⟩
      · intro hres
        rw [hkey, if_pos h] at hres
        simp at hres
      · rw [hkey, if_pos h]
        simp [hp, h]
    · refine ⟨fun hc => absurd hc hp,
        fun _ => ⟨hp, fun habs => h habs.symm⟩, ?_⟩
      rw [hkey, if_neg h]
      constructor
      · intro hcb
        exact absurd hcb (by simp)
      · rintro ⟨-, hl⟩
        exact absurd hl.symm h

theorem verifyLaunchHmac_reason_codes_witness :
    (providedHmacOf [("shop", QVal.str "rg-demo")] = "" →
      verifyLaunchHmac (fun m k => m ++ "#" ++ k)
        (some [("shop", QVal.str "rg-demo")]) "cs"
        = { ok := false, reason := some "no_hmac" })
    ∧ ((verifyLaunchHmac (fun m k => m ++ "#" ++ k)
          (some [("shop", QVal.str "rg-demo")]) "cs").reason = some "mismatch" →
        providedHmacOf [("shop", QVal.str "rg-demo")] ≠ "" ∧
        (providedHmacOf [("shop", QVal.str "rg-demo")]).toLower
          ≠ (fun m k => m ++ "#" ++ k)
              (canonicalQueryString [("shop", QVal.str "rg-demo")]) "cs")
    ∧ ((verifyLaunchHmac (fun m k => m ++ "#" ++ k)
          (some [("shop", QVal.str "rg-demo")]) "cs").ok = true ↔
        providedHmacOf [("shop", QVal.str "rg-demo")] ≠ "" ∧
        (providedHmacOf [("shop", QVal.str "rg-demo")]).toLower
          = (fun m k => m ++ "#" ++ k)
              (canonicalQueryString [("shop", QVal.str "rg-demo")]) "cs") :=
  verifyLaunchHmac_reason_codes (fun m k => m ++ "#" ++ k)
    [("shop", QVal.str "rg-demo")] "cs" (by decide)

/-! ## App session reader (src/utils/appSession.js) -/

/-- The session payload `{shop, storeId, exp}` (exp in epoch milliseconds). -/
structure SessPayload where
  shop : String
  storeId : Option String
  exp : Int
deriving Repr, DecidableEq

/-- The `[b, sig] = String(value).split('.')` destructuring: the first two
dot-separated pieces (sig is undefined when there is no dot). -/
def cookieParts (v : String) : String × Option String :=
  let parts := (splitOnChar '.' v.data).map (fun cs => String.mk cs)
  ((parts.get? 0).getD "", parts.get? 1)

/-- readAppSession (appSession.js lines 67-84).  `hmacHexF payload secret` is
the hex HMAC-SHA256 digest; `parseF` is `JSON.parse ∘ base64url-decode`
collapsed to one external parser (`none` for anything that throws or does not
yield an object with usable fields).  `crypto.timingSafeEqual` throws when the
two buffers differ in byte length — the error case — and the payload is
rejected (null) when malformed, shopless, expiry-less or expired, where
expired means strictly `now > exp`. -/
def readAppSession (hmacHexF : String → String → String)
    (parseF : String → Option SessPayload) (secret : String)
    (cookie : Option String) (nowMs : Int) : Except String (Option SessPayload) :=
  match cookie with
  | none => .ok none
  | some value =>
    if value == "" then .ok none
    else
      match cookieParts value with
      | (_, none) => .ok none
      | (b, some sig) =>
        if b == "" || sig == "" then .ok none
        else
          let expected := hmacHexF b secret
          if expected.utf8ByteSize != sig.utf8ByteSize then
            .error "ERR_CRYPTO_TIMING_SAFE_EQUAL_LENGTH"
          else if expected != sig then .ok none
          else
            match parseF b with
            | none => .ok none
            | some payload =>
              if payload.shop == "" || payload.exp == 0 || decide (nowMs > payload.exp)
              then .ok none
              else .ok (some payload)

/-! ## C7: session reader rejection behavior -/

/-- A stand-in digest function with the 64-character output length of a hex
SHA-256 digest. -/
def hexDigest64 : String → String → String :=
  fun _ _ => "0123456789abcdef0123456789abcdef0123456789abcdef0123456789abcdef"

/-- C7 counterexample: the cookie value "a.b" splits into payload "a" and
signature "b"; the signature has byte length 1 while the expected hex digest
has byte length 64, so `crypto.timingSafeEqual` raises instead of the reader
returning null — refuting the claim that every non-valid value is rejected by
returning null rather than raising an error. -/
theorem readAppSession_raises_on_wrong_length_sig :
    readAppSession hexDigest64 (fun _ => none) "secret" (some "a.b") 0
      = .error "ERR_CRYPTO_TIMING_SAFE_EQUAL_LENGTH" := rfl

/-- C7 amended: the reader returns the payload iff the value splits into
payload and signature, the signature has the digest's byte length and equals
the digest of the payload, the payload parses with a truthy shop and expiry,
and `now <= exp` (the boundary `now = exp` is accepted); an equal-length
signature mismatch, a parse failure, a falsy shop or expiry, or `now > exp`
returns null; but a present signature whose byte length differs from the
digest's raises an error instead of returning null. -/
theorem readAppSession_corrected
    (hmacHexF : String → String → String) (parseF : String → Option SessPayload)
    (secret v : String) (nowMs : Int) (b sig : String) (p : SessPayload)
    (hv : v ≠ "") (hparts : cookieParts v = (b, some sig))
    (hb : b ≠ "") (hsig : sig ≠ "") :
    (sig.utf8ByteSize ≠ (hmacHexF b secret).utf8ByteSize →
      readAppSession hmacHexF parseF secret (some v) nowMs
        = .error "ERR_CRYPTO_TIMING_SAFE_EQUAL_LENGTH")
    ∧ (sig.utf8ByteSize = (hmacHexF b secret).utf8ByteSize →
       sig ≠ hmacHexF b secret →
        readAppSession hmacHexF parseF secret (some v) nowMs = .ok none)
    ∧ (sig = hmacHexF b secret → parseF b = none →
        readAppSession hmacHexF parseF secret (some v) nowMs = .ok none)
    ∧ (sig = hmacHexF b secret → parseF b = some p →
       (p.shop = "" ∨ p.exp = 0 ∨ nowMs > p.exp) →
        readAppSession hmacHexF parseF secret (some v) nowMs = .ok none)
    ∧ (sig = hmacHexF b secret → parseF b = some p →
       p.shop ≠ "" → p.exp ≠ 0 → nowMs ≤ p.exp →
        readAppSession hmacHexF parseF secret (some v) nowMs = .ok (some p)) := by
  refine ⟨?_, ?_, ?_, ?_, ?_⟩
  · intro hlen
    have hne : (hmacHexF b secret).utf8ByteSize ≠ sig.utf8ByteSize :=
      fun h => hlen h.symm
    simp [readAppSession, hv, hparts, hb, hsig, hne]
  · intro hlen hneq
    have hne : hmacHexF b secret ≠ sig := fun h => hneq h.symm
    simp [readAppSession, hv, hparts, hb, hsig, hlen.symm, hne]
  · intro heq hparse
    simp [readAppSession, hv, hparts, hb, hsig, heq.symm, hparse]
  · intro heq hparse hrej
    rcases hrej with h | h | h
    · simp [readAppSession, hv, hparts, hb, hsig, heq.symm, hparse, h]
    · simp [readAppSession, hv, hparts, hb, hsig, heq.symm, hparse, h]
    · simp [readAppSession, hv, hparts, hb, hsig, heq.symm, hparse, h]
  · intro heq hparse hshop hexp hle
    have hnow : ¬ nowMs > p.exp := Int.not_lt.mpr hle
    simp [readAppSession, hv, hparts, hb, hsig, heq.symm, hparse, hshop, hexp, hnow]

/-- Concrete digest, parser and payload for the C7 witness. -/
def sessWitnessHmac : String → String → String :=
  fun bb kk => bb ++ ":" ++ kk

def sessWitnessPayload : SessPayload :=
  { shop := "shop1", storeId := none, exp := 100 }

def sessWitnessParse : String → Option SessPayload :=
  fun s => if s == "pl" then some sessWitnessPayload else none

theorem readAppSession_corrected_witness :
    (("pl:sk").utf8ByteSize ≠ (sessWitnessHmac "pl" "sk").utf8ByteSize →
      readAppSession sessWitnessHmac sessWitnessParse "sk" (some "pl.pl:sk") 100
        = .error "ERR_CRYPTO_TIMING_SAFE_EQUAL_LENGTH")
    ∧ (("pl:sk").utf8ByteSize = (sessWitnessHmac "pl" "sk").utf8ByteSize →
       "pl:sk" ≠ sessWitnessHmac "pl" "sk" →
        readAppSession sessWitnessHmac sessWitnessParse "sk" (some "pl.pl:sk") 100
          = .ok none)
    ∧ ("pl:sk" = sessWitnessHmac "pl" "sk" → sessWitnessParse "pl" = none →
        readAppSession sessWitnessHmac sessWitnessParse "sk" (some "pl.pl:sk") 100
          = .ok none)
    ∧ ("pl:sk" = sessWitnessHmac "pl" "sk" →
       sessWitnessParse "pl" = some sessWitnessPayload →
       (sessWitnessPayload.shop = "" ∨ sessWitnessPayload.exp = 0
         ∨ (100 : Int) > sessWitnessPayload.exp) →
        readAppSession sessWitnessHmac sessWitnessParse "sk" (some "pl.pl:sk") 100
          = .ok none)
    ∧ ("pl:sk" = sessWitnessHmac "pl" "sk" →
       sessWitnessParse "pl" = some sessWitnessPayload →
       sessWitnessPayload.shop ≠ "" → sessWitnessPayload.exp ≠ 0 →
       (100 : Int) ≤ sessWitnessPayload.exp →
        readAppSession sessWitnessHmac sessWitnessParse "sk" (some "pl.pl:sk") 100
          = .ok (some sessWitnessPayload)) :=
  readAppSession_corrected sessWitnessHmac sessWitnessParse
    "sk" "pl.pl:sk" 100 "pl" "pl:sk" sessWitnessPayload
    (by decide) (by decide) (by decide) (by decide)

/-! ## Payment-session initializer (src/routes/pay.js, POST /pay/init) -/

/-- `pad2`: two-digit zero-padded fraction part. -/
def pad2 (k : Nat) : String :=
  if k < 10 then "0" ++ toString k else toString k

/-- `toFixed(2)` on a nonnegative exact decimal: round half up to an integer
number of cents (`n = floor(q*100 + 1/2)` computed on integers), then print
`units.cents`. -/
def toFixed2Nat (q : JsNum) : String :=
  let e : Int := (10 : Int) ^ q.exp10
  let n : Nat := ((200 * q.mant + e) / (2 * e)).toNat
  toString (n / 100) ++ "." ++ pad2 (n % 100)

/-- `toFixed(2)`: ECMA applies the sign to the rounded absolute value. -/
def toFixed2 (q : JsNum) : String :=
  if q.mant < 0 then "-" ++ toFixed2Nat ⟨-q.mant, q.exp10⟩ else toFixed2Nat q

/-- `String(v).replace(/[, ]+/g, '')` — drop commas and spaces. -/
def stripCommaSpace (cs : List Char) : List Char :=
  cs.filter (fun c => !(c == ',' || c == ' '))

/-- normalizeMajorAmountStr (pay.js lines 12-20): null in, null out;
otherwise strip commas/spaces, coerce with `Number`, null when not finite,
else format with two decimals (`toFixed2` output is never empty, so the
route's later truthiness checks on it reduce to non-nullness). -/
def normalizeMajorAmountStr (v : Option String) : Option String :=
  match v with
  | none => none
  | some s => (jsNumberParseChars (stripCommaSpace s.data)).map toFixed2

/-- `String(x).trim().toUpperCase()` (ASCII uppercase; currency codes). -/
def jsToUpperTrim (s : String) : String :=
  String.mk ((trimChars s.data).map Char.toUpper)

/-- Body of POST /pay/init: `{orderId, amountMinor?, amount?, currency,
customer: {id}}`; `amountMinor` is `some m` exactly when an integer was
supplied (`Number.isInteger(amountMinor)`). -/
structure InitReqBody where
  orderId : Option String := none
  amountMinor : Option Int := none
  amount : Option String := none
  currency : Option String := none
  customerId : Option String := none

/-- One entry of the 409 `conflicts` list: field name, existing value,
requested value. -/
structure ConflictEntry where
  fieldName : String
  existing : String
  requested : String
deriving Repr, DecidableEq

/-- Responses of POST /pay/init (the 200 payload's redirect URL is built by
the hosted-page builder modelled above and carries no ledger state). -/
inductive InitResponse where
  | misconfiguredEnv
  | invalidRequest
  | invalidAmount
  | invalidCurrency
  | conflict409 (conflicts : List ConflictEntry)
  | ok200
deriving Repr, DecidableEq

/-- The normalized request amount (pay.js lines 82-87): prefer integer cents
`amountMinor` (`(amountMinor / 100).toFixed(2)`), else normalize the
major-unit `amount`. -/
def requestedAmount (b : InitReqBody) : Option String :=
  match b.amountMinor with
  | some m => some (toFixed2 ⟨m, 2⟩)
  | none => normalizeMajorAmountStr b.amount

/-- The normalized request currency (pay.js line 98). -/
def requestedCurrency (b : InitReqBody) : String :=
  jsToUpperTrim (b.currency.getD "")

/-- The idempotency conflicts (pay.js lines 110-135): a field conflicts when
the existing row holds a truthy value different from the request (amounts are
compared after normalization). -/
def conflictsOf (e : PaymentRow) (namaj ncur cid : String) : List ConflictEntry :=
  (match normalizeMajorAmountStr e.amount with
   | some ea => if ea != "" && ea != namaj then [⟨"amount", ea, namaj⟩] else []
   | none => []) ++
  (match e.currency with
   | some ec => if ec != "" && ec != ncur then [⟨"currency", ec, ncur⟩] else []
   | none => []) ++
  (match e.customer_id with
   | some eci => if eci != "" && eci != cid then [⟨"customer.id", eci, cid⟩] else []
   | none => [])

/-- POST /pay/init (pay.js lines 56-198) as a pure function from the env
credentials, the existing row for the order and the request body to the
response and the row stored afterwards.  On 409 nothing is written; with no
conflicts the route writes only when some base field (amount, currency,
customer, status) is missing, passing `existing.field ?? requested` so
already-set fields are never altered. -/
def payInit (envMerch envSecret : Option String) (existing : Option PaymentRow)
    (b : InitReqBody) (nowTs : String) : InitResponse × Option PaymentRow :=
  if strFalsy envMerch || strFalsy envSecret then (.misconfiguredEnv, existing)
  else if strFalsy b.orderId || strFalsy b.currency || strFalsy b.customerId then
    (.invalidRequest, existing)
  else
    match requestedAmount b with
    | none => (.invalidAmount, existing)
    | some namaj =>
      let ncur := requestedCurrency b
      if ncur.length != 3 then (.invalidCurrency, existing)
      else
        let cid := b.customerId.getD ""
        let orderId := b.orderId.getD ""
        match existing with
        | some e =>
          let conflicts := conflictsOf e namaj ncur cid
          if conflicts.isEmpty then
            if strFalsy e.amount || strFalsy e.currency ||
                strFalsy e.customer_id || strFalsy e.status then
              (.ok200, some (createOrUpdatePayment (some e)
                { orderId := orderId,
                  customerId := jsNullish e.customer_id (some cid),
                  amount := jsNullish e.amount (some namaj),
                  currency := jsNullish e.currency (some ncur),
                  status := jsNullish e.status (some "initiated") } nowTs))
            else (.ok200, some e)
          else (.conflict409 conflicts, some e)
        | none =>
          (.ok200, some (createOrUpdatePayment none
            { orderId := orderId, customerId := some cid, amount := some namaj,
              currency := some ncur, status := some "initiated" } nowTs))

/-! ## Helper lemmas for the C3 proof -/

theorem jsNullish_absorb (x y : Option String) :
    jsNullish (jsNullish x y) x = jsNullish x y := by
  cases x <;> cases y <;> rfl

theorem jsNullish_of_truthy (x y : Option String) (h : strFalsy x = false) :
    jsNullish x y = x := by
  cases x with
  | none => simp [strFalsy] at h
  | some a => rfl

theorem canAdvance_self (x : String) : canAdvance (some x) x = true := by
  by_cases hx : x = "" <;> simp [canAdvance, strFalsy, hx]

/-- The status a no-conflict re-init stores: `existing.status ?? 'initiated'`
survives createOrUpdatePayment unchanged (same-status writes always advance,
and a fresh `initiated` advances over an absent status). -/
theorem createOrUpdate_status_backfill (e : PaymentRow) (a : UpsertPaymentArgs)
    (nowTs : String) (ha : a.status = jsNullish e.status (some "initiated")) :
    (createOrUpdatePayment (some e) a nowTs).status
      = jsNullish e.status (some "initiated") := by
  cases hs : e.status with
  | none =>
    rw [hs] at ha
    simp [createOrUpdatePayment, ha, hs, jsNullish, canAdvance, strFalsy]
  | some x =>
    rw [hs] at ha
    simp only [jsNullish] at ha
    by_cases hx : x = ""
    · subst hx
      simp [createOrUpdatePayment, ha, hs, jsNullish]
    · simp [createOrUpdatePayment, ha, hs, jsNullish, canAdvance_self, hx]

/-! ## C3: idempotent re-init conflicts and backfill -/

/-- C3: on an existing record, a valid re-init request (env configured, base
fields present, amount and currency normalize) answers 409 with the computed
conflicts list — naming amount, currency and customer id whenever the
existing row holds a truthy value differing from the request — and leaves the
record untouched; with no conflicting field the request succeeds and the
resulting row backfills exactly the missing fields (`existing ?? requested`),
never altering already-set amount, currency, customer, status or the stored
gateway transaction id. -/
theorem payInit_conflict_and_backfill
    (envMerch envSecret : Option String) (e : PaymentRow) (b : InitReqBody)
    (nowTs namaj ncur cid : String)
    (h1 : strFalsy envMerch = false) (h2 : strFalsy envSecret = false)
    (h3 : strFalsy b.orderId = false) (h4 : strFalsy b.currency = false)
    (h5 : strFalsy b.customerId = false)
    (h6 : requestedAmount b = some namaj)
    (hcur : requestedCurrency b = ncur) (h7 : ncur.length = 3)
    (hcid : b.customerId.getD "" = cid) :
    (conflictsOf e namaj ncur cid ≠ [] →
      payInit envMerch envSecret (some e) b nowTs
        = (.conflict409 (conflictsOf e namaj ncur cid), some e))
    ∧ (∀ ea, normalizeMajorAmountStr e.amount = some ea → ea ≠ "" → ea ≠ namaj →
        ConflictEntry.mk "amount" ea namaj ∈ conflictsOf e namaj ncur cid)
    ∧ (∀ ec, e.currency = some ec → ec ≠ "" → ec ≠ ncur →
        ConflictEntry.mk "currency" ec ncur ∈ conflictsOf e namaj ncur cid)
    ∧ (∀ eci, e.customer_id = some eci → eci ≠ "" → eci ≠ cid →
        ConflictEntry.mk "customer.id" eci cid ∈ conflictsOf e namaj ncur cid)
    ∧ (conflictsOf e namaj ncur cid = [] →
        ∃ r, payInit envMerch envSecret (some e) b nowTs = (.ok200, some r)
          ∧ r.amount = jsNullish e.amount (some namaj)
          ∧ r.currency = jsNullish e.currency (some ncur)
          ∧ r.customer_id = jsNullish e.customer_id (some cid)
          ∧ r.status = jsNullish e.status (some "initiated")
          ∧ r.rocketgate_txn = e.rocketgate_txn) := by
  have hmain : payInit envMerch envSecret (some e) b nowTs =
      (if (conflictsOf e namaj ncur cid).isEmpty then
        (if strFalsy e.amount || strFalsy e.currency ||
            strFalsy e.customer_id || strFalsy e.status then
          (.ok200, some (createOrUpdatePayment (some e)
            { orderId := b.orderId.getD "",
              customerId := jsNullish e.customer_id (some cid),
              amount := jsNullish e.amount (some namaj),
              currency := jsNullish e.currency (some ncur),
              status := jsNullish e.status (some "initiated") } nowTs))
        else (.ok200, some e))
      else (.conflict409 (conflictsOf e namaj ncur cid), some e)) := by
    simp [payInit, h1, h2, h3, h4, h5, h6, hcur, h7, hcid]
  refine ⟨?_, ?_, ?_, ?_, ?_⟩
  · intro hcf
    have hne : (conflictsOf e namaj ncur cid).isEmpty = false := by
      cases hl : conflictsOf e namaj ncur cid with
      | nil => exact absurd hl hcf
      | cons x xs => rfl
    rw [hmain, hne]
    simp
  · intro ea hea heane heamaj
    simp [conflictsOf, hea, heane, heamaj]
  · intro ec hec hecne hecncur
    simp [conflictsOf, hec, hecne, hecncur]
  · intro eci heci hecine hecicid
    simp [conflictsOf, heci, hecine, hecicid]
  · intro hcf
    have hemp : (conflictsOf e namaj ncur cid).isEmpty = true := by
      rw [hcf]; rfl
    rw [hmain, hemp]
    by_cases hmiss : (strFalsy e.amount || strFalsy e.currency ||
        strFalsy e.customer_id || strFalsy e.status) = true
    · refine ⟨createOrUpdatePayment (some e)
          { orderId := b.orderId.getD "",
            customerId := jsNullish e.customer_id (some cid),
            amount := jsNullish e.amount (some namaj),
            currency := jsNullish e.currency (some ncur),
            status := jsNullish e.status (some "initiated") } nowTs,
          by rw [if_pos hmiss]; rfl, ?_, ?_, ?_, ?_, ?_⟩
      · show jsNullish (jsNullish e.amount (some namaj))
            ((some e).bind (fun p => p.amount)) = jsNullish e.amount (some namaj)
        exact jsNullish_absorb e.amount (some namaj)
      · show jsNullish (jsNullish e.currency (some ncur))
            ((some e).bind (fun p => p.currency)) = jsNullish e.currency (some ncur)
        exact jsNullish_absorb e.currency (some ncur)
      · show jsNullish (jsNullish e.customer_id (some cid))
            ((some e).bind (fun p => p.customer_id)) = jsNullish e.customer_id (some cid)
        exact jsNullish_absorb e.customer_id (some cid)
      · exact createOrUpdate_status_backfill e _ nowTs rfl
      · rfl
    · have hfour := hmiss
      simp only [Bool.or_eq_true, not_or, Bool.not_eq_true] at hfour
      obtain ⟨⟨⟨ha, hc⟩, hcu⟩, hst⟩ := hfour
      refine ⟨e, by simp [hmiss], ?_, ?_, ?_, ?_, rfl⟩
      · exact (jsNullish_of_truthy e.amount (some namaj) ha).symm
      · exact (jsNullish_of_truthy e.currency (some ncur) hc).symm
      · exact (jsNullish_of_truthy e.customer_id (some cid) hcu).symm
      · exact (jsNullish_of_truthy e.status (some "initiated") hst).symm

/-- Concrete record and request for the C3 witness: the row knows only its
currency and status; the request supplies 1000 cents, "usd" and customer
C1. -/
def c3Row : PaymentRow :=
  { order_id := "O-1", currency := some "USD", status := some "initiated" }

def c3Body : InitReqBody :=
  { orderId := some "O-1", amountMinor := some 1000,
    currency := some " usd ", customerId := some "C1" }

theorem payInit_conflict_and_backfill_witness :
    (conflictsOf c3Row "10.00" "USD" "C1" ≠ [] →
      payInit (some "1483462469") (some "sek") (some c3Row) c3Body "t0"
        = (.conflict409 (conflictsOf c3Row "10.00" "USD" "C1"), some c3Row))
    ∧ (∀ ea, normalizeMajorAmountStr c3Row.amount = some ea → ea ≠ "" → ea ≠ "10.00" →
        ConflictEntry.mk "amount" ea "10.00" ∈ conflictsOf c3Row "10.00" "USD" "C1")
    ∧ (∀ ec, c3Row.currency = some ec → ec ≠ "" → ec ≠ "USD" →
        ConflictEntry.mk "currency" ec "USD" ∈ conflictsOf c3Row "10.00" "USD" "C1")
    ∧ (∀ eci, c3Row.customer_id = some eci → eci ≠ "" → eci ≠ "C1" →
        ConflictEntry.mk "customer.id" eci "C1" ∈ conflictsOf c3Row "10.00" "USD" "C1")
    ∧ (conflictsOf c3Row "10.00" "USD" "C1" = [] →
        ∃ r, payInit (some "1483462469") (some "sek") (some c3Row) c3Body "t0"
            = (.ok200, some r)
          ∧ r.amount = jsNullish c3Row.amount (some "10.00")
          ∧ r.currency = jsNullish c3Row.currency (some "USD")
          ∧ r.customer_id = jsNullish c3Row.customer_id (some "C1")
          ∧ r.status = jsNullish c3Row.status (some "initiated")
          ∧ r.rocketgate_txn = c3Row.rocketgate_txn) :=
  payInit_conflict_and_backfill (some "1483462469") (some "sek") c3Row c3Body
    "t0" "10.00" "USD" "C1"
    (by decide) (by decide) (by decide) (by decide) (by decide)
    (by decide) (by decide) (by decide) (by decide)

end RgSp
